import Mathlib

/-!
Verification of the `label-printer-server` example client
(`examples/example.py`) and of the spec's Print Job Queue model.

The first part is a shallow embedding of the Python client: JSON values,
the fragment of Python semantics the client uses (dict `get`, subscripting,
`len`, truthiness), the request each client function constructs, and the
response handling of each function.  The second part models the server-side
job queue that the spec describes (the server code is not part of this
repository).
-/

/-- A JSON value, as produced by `response.json()` and consumed by
`requests`' `json=` argument. -/
inductive JVal where
  | null
  | bool (b : Bool)
  | num (n : Int)
  | str (s : String)
  | arr (xs : List JVal)
  | obj (kvs : List (String × JVal))
deriving Repr

/-- Python truthiness (`bool(v)`) of a JSON value: `None`, `False`, `0`,
`""`, `[]` and `{}` are falsy, everything else truthy. -/
def JVal.truthy : JVal → Bool
  | .null => false
  | .bool b => b
  | .num n => n != 0
  | .str s => s != ""
  | .arr xs => !xs.isEmpty
  | .obj kvs => !kvs.isEmpty

/-- The exceptions the client's response handling can raise.  All of these
are subclasses of Python's `Exception` (including `requests`'
`ConnectionError`), so all are caught by `except Exception` in `main`. -/
inductive PyExc where
  | connectionError
  | keyError
  | typeError
  | indexError
  | attributeError
  | other (msg : String)
deriving Repr, DecidableEq

/-- Python `d.get(k)`: on a dict returns the value or `None`; on any
non-dict value the attribute lookup `.get` raises `AttributeError`. -/
def pyDictGet : JVal → String → Except PyExc JVal
  | .obj kvs, k => .ok ((kvs.lookup k).getD .null)
  | _, _ => .error .attributeError

/-- Python `d[k]` with a string key: `KeyError` when the key is absent from
a dict, `TypeError` on non-dict values. -/
def pySubscriptStr : JVal → String → Except PyExc JVal
  | .obj kvs, k =>
    match kvs.lookup k with
    | some v => .ok v
    | none => .error .keyError
  | _, _ => .error .typeError

/-- Python `xs[i]` with a non-negative integer index: `IndexError` when out
of range, `TypeError` on values that are not lists. -/
def pySubscriptNat : JVal → Nat → Except PyExc JVal
  | .arr xs, i =>
    match xs.get? i with
    | some v => .ok v
    | none => .error .indexError
  | _, _ => .error .typeError

/-- Python `len(v)`: defined on lists, strings and dicts, `TypeError`
otherwise. -/
def pyLen : JVal → Except PyExc Nat
  | .arr xs => .ok xs.length
  | .str s => .ok s.length
  | .obj kvs => .ok kvs.length
  | _ => .error .typeError

/-- Python `str(v)` restricted to the scalar shapes the client ever puts in
a URL path (the job id). -/
def pyStr : JVal → String
  | .null => "None"
  | .bool true => "True"
  | .bool false => "False"
  | .num n => toString n
  | .str s => s
  | .arr _ => "<list>"
  | .obj _ => "<dict>"

/-- An HTTP request as the client constructs it: method, path relative to
`API_URL`, optional JSON body, query parameters. -/
structure Request where
  method : String
  path : String
  body : Option JVal
  params : List (String × JVal)
deriving Repr

/-- `list_printers`: `GET /printers`, no body, no params. -/
def list_printers_request : Request :=
  { method := "GET", path := "/printers", body := none, params := [] }

/-- `connect_printer(vendor_id, product_id)`: `POST /printers/connect` with
body `{'vendorId': vendor_id, 'productId': product_id}`. -/
def connect_printer_request (vendor_id product_id : JVal) : Request :=
  { method := "POST", path := "/printers/connect",
    body := some (.obj [("vendorId", vendor_id), ("productId", product_id)]),
    params := [] }

/-- `get_printer_status()`: `GET /printers/status`. -/
def get_printer_status_request : Request :=
  { method := "GET", path := "/printers/status", body := none, params := [] }

/-- `print_label(label_data)`: `POST /print` with `json=label_data` — the
argument is transmitted as the body unchanged. -/
def print_label_request (label_data : JVal) : Request :=
  { method := "POST", path := "/print", body := some label_data, params := [] }

/-- `print_custom_tspl(tspl_commands)`: `POST /print/custom` with body
`{'tspl': tspl_commands}`. -/
def print_custom_tspl_request (tspl_commands : JVal) : Request :=
  { method := "POST", path := "/print/custom",
    body := some (.obj [("tspl", tspl_commands)]), params := [] }

/-- `check_job_status(job_id)`: `GET /jobs/{job_id}`. -/
def check_job_status_request (job_id : JVal) : Request :=
  { method := "GET", path := "/jobs/" ++ pyStr job_id, body := none, params := [] }

/-- The `params` dict built by `list_jobs(status, limit)`:
`params = {}` then `if status: params['status'] = status` and
`if limit: params['limit'] = limit` — inclusion is decided by Python
truthiness, not by a not-`None` test. -/
def list_jobs_params (status : Option String) (limit : Option Int) :
    List (String × JVal) :=
  let params : List (String × JVal) := []
  let params :=
    match status with
    | some s => if s != "" then params ++ [("status", JVal.str s)] else params
    | none => params
  let params :=
    match limit with
    | some n => if n != 0 then params ++ [("limit", JVal.num n)] else params
    | none => params
  params

/-- `list_jobs(status, limit)`: `GET /jobs` with the truthiness-filtered
query parameters. -/
def list_jobs_request (status : Option String) (limit : Option Int) : Request :=
  { method := "GET", path := "/jobs", body := none,
    params := list_jobs_params status limit }

/-- `get_queue_stats()`: `GET /queue/stats`. -/
def get_queue_stats_request : Request :=
  { method := "GET", path := "/queue/stats", body := none, params := [] }

/-- `clear_completed_jobs()`: `POST /queue/clear`, no body. -/
def clear_completed_jobs_request : Request :=
  { method := "POST", path := "/queue/clear", body := none, params := [] }

/-- A line of console output: a plain `print`, a `json.dumps` of a value,
or an f-string that embeds a dumped value after a label. -/
inductive Out where
  | line (s : String)
  | jsonOf (v : JVal)
  | labeledJson (s : String) (v : JVal)
deriving Repr

/-- An observable event of the client: something printed, or an HTTP
request issued. -/
inductive Ev where
  | printed (o : Out)
  | call (r : Request)
deriving Repr

/-- The behaviour of the server (and network) as the client sees it: each
request either yields a decoded JSON body or raises an exception. -/
def HttpOracle : Type := Request → Except PyExc JVal

/-- `list_printers()`: prints, issues `GET /printers`, prints the decoded
response and returns it unchanged. -/
def list_printers (o : HttpOracle) : Except PyExc (List Ev × JVal) := do
  let resp ← o list_printers_request
  pure ([Ev.printed (.line "Listing available printers..."),
         Ev.call list_printers_request,
         Ev.printed (.jsonOf resp)], resp)

/-- `connect_printer(vendor_id, product_id)`. -/
def connect_printer (o : HttpOracle) (vendor_id product_id : JVal) :
    Except PyExc (List Ev × JVal) := do
  let resp ← o (connect_printer_request vendor_id product_id)
  pure ([Ev.printed (.line ("Connecting to printer " ++ pyStr vendor_id ++ ":"
           ++ pyStr product_id ++ "...")),
         Ev.call (connect_printer_request vendor_id product_id),
         Ev.printed (.jsonOf resp)], resp)

/-- `get_printer_status()`. -/
def get_printer_status (o : HttpOracle) : Except PyExc (List Ev × JVal) := do
  let resp ← o get_printer_status_request
  pure ([Ev.printed (.line "Getting printer status..."),
         Ev.call get_printer_status_request,
         Ev.printed (.jsonOf resp)], resp)

/-- `print_label(label_data)`: submits the structured job with `label_data`
itself as the request body. -/
def print_label (o : HttpOracle) (label_data : JVal) :
    Except PyExc (List Ev × JVal) := do
  let resp ← o (print_label_request label_data)
  pure ([Ev.printed (.line "Submitting print job..."),
         Ev.call (print_label_request label_data),
         Ev.printed (.labeledJson "Job created: " resp)], resp)

/-- `print_custom_tspl(tspl_commands)`: submits the raw job with body
`{'tspl': tspl_commands}`. -/
def print_custom_tspl (o : HttpOracle) (tspl_commands : JVal) :
    Except PyExc (List Ev × JVal) := do
  let resp ← o (print_custom_tspl_request tspl_commands)
  pure ([Ev.printed (.line "Submitting custom TSPL job..."),
         Ev.call (print_custom_tspl_request tspl_commands),
         Ev.printed (.labeledJson "Job created: " resp)], resp)

/-- `check_job_status(job_id)`. -/
def check_job_status (o : HttpOracle) (job_id : JVal) :
    Except PyExc (List Ev × JVal) := do
  let resp ← o (check_job_status_request job_id)
  pure ([Ev.printed (.line ("Checking job " ++ pyStr job_id ++ "...")),
         Ev.call (check_job_status_request job_id),
         Ev.printed (.jsonOf resp)], resp)

/-- `list_jobs(status=None, limit=None)`. -/
def list_jobs (o : HttpOracle) (status : Option String) (limit : Option Int) :
    Except PyExc (List Ev × JVal) := do
  let resp ← o (list_jobs_request status limit)
  pure ([Ev.printed (.line "Listing jobs..."),
         Ev.call (list_jobs_request status limit),
         Ev.printed (.jsonOf resp)], resp)

/-- `get_queue_stats()`. -/
def get_queue_stats (o : HttpOracle) : Except PyExc (List Ev × JVal) := do
  let resp ← o get_queue_stats_request
  pure ([Ev.printed (.line "Getting queue statistics..."),
         Ev.call get_queue_stats_request,
         Ev.printed (.jsonOf resp)], resp)

/-- `clear_completed_jobs()`. -/
def clear_completed_jobs (o : HttpOracle) : Except PyExc (List Ev × JVal) := do
  let resp ← o clear_completed_jobs_request
  pure ([Ev.printed (.line "Clearing completed jobs..."),
         Ev.call clear_completed_jobs_request,
         Ev.printed (.jsonOf resp)], resp)

/-- The guard `printers.get('printers') and len(printers['printers']) > 0`
in `main`, with Python's short-circuit `and` and truthiness. -/
def printersGuard (printers : JVal) : Except PyExc Bool := do
  let g ← pyDictGet printers "printers"
  if g.truthy then
    let l ← pySubscriptStr printers "printers"
    let n ← pyLen l
    pure (decide (n > 0))
  else
    pure false

/-- The guard `print_job.get('job') and print_job['job'].get('id')` in
`main`. -/
def jobGuard (print_job : JVal) : Except PyExc Bool := do
  let j ← pyDictGet print_job "job"
  if j.truthy then
    let jv ← pySubscriptStr print_job "job"
    let i ← pyDictGet jv "id"
    pure i.truthy
  else
    pure false

/-- The `'\n---\n'` separator `main` prints between steps. -/
def sepEv : Ev := .printed (.line "\n---\n")

/-- The structured-label argument `main` passes to `print_label`. -/
def mainLabelData : JVal :=
  .obj [("pageConfig", .str "default"),
        ("label", .obj [("qrData", .str "https://example.com/product/ABC-123"),
                        ("title", .str "PRODUCT-ABC-123"),
                        ("subtitle", .str "Batch: 2026-01-15")]),
        ("quantity", .num 1)]

/-- Step 2 of `main`: connect to the first printer and query its status,
executed only when the printers guard holds. -/
def connectStep (o : HttpOracle) (printers : JVal) : Except PyExc (List Ev) := do
  let g ← printersGuard printers
  if g then
    let plist ← pySubscriptStr printers "printers"
    let printer ← pySubscriptNat plist 0
    let v ← pySubscriptStr printer "vendorId"
    let p ← pySubscriptStr printer "productId"
    let (e1, _) ← connect_printer o v p
    let (e2, _) ← get_printer_status o
    pure (e1 ++ [sepEv] ++ e2 ++ [sepEv])
  else
    pure []

/-- Step 5 of `main`: check the submitted job's status, executed only when
the job guard holds. -/
def jobStep (o : HttpOracle) (print_job : JVal) : Except PyExc (List Ev) := do
  let g ← jobGuard print_job
  if g then
    let j ← pySubscriptStr print_job "job"
    let i ← pySubscriptStr j "id"
    let (e, _) ← check_job_status o i
    pure (e ++ [sepEv])
  else
    pure []

/-- The body of the `try` block in `main`: the full example workflow. -/
def mainBody (o : HttpOracle) : Except PyExc (List Ev) := do
  let (e1, printers) ← list_printers o
  let e2 ← connectStep o printers
  let (e3, print_job) ← print_label o mainLabelData
  let e4 ← jobStep o print_job
  let (e5, _) ← get_queue_stats o
  let (e6, _) ← list_jobs o none (some 5)
  pure ([Ev.printed (.line "=== Label Printer API Example ===\n")]
    ++ e1 ++ [sepEv] ++ e2 ++ e3 ++ [sepEv] ++ e4 ++ e5 ++ [sepEv] ++ e6
    ++ [Ev.printed (.line "\n=== Example completed ===")])

/-- What the caller of `main` observes: a normal return (with the console
events) or a propagated exception. -/
inductive Outcome where
  | returned (evs : List Ev)
  | raised (e : PyExc)
deriving Repr

/-- Whether `main` returned normally. -/
def Outcome.isReturned : Outcome → Bool
  | .returned _ => true
  | .raised _ => false

/-- Rendering of a Python exception by `print(f'Error: \x7berror\x7d')`. -/
def excMsg : PyExc → String
  | .connectionError => "ConnectionError"
  | .keyError => "KeyError"
  | .typeError => "TypeError"
  | .indexError => "IndexError"
  | .attributeError => "AttributeError"
  | .other m => m

/-- What the two `except` handlers print: `ConnectionError` gets the
specific two-line hint naming port 3000, every other exception the generic
`Error: ...` line. -/
def errEvents : PyExc → List Ev
  | .connectionError =>
    [Ev.printed (.line "Error: Could not connect to API server."),
     Ev.printed (.line "Make sure the Label Printer Server is running on port 3000.")]
  | e => [Ev.printed (.line ("Error: " ++ excMsg e))]

/-- `main()`: the `try` body wrapped in the two `except` handlers.  Every
exception the workflow can raise is a `PyExc`, i.e. a Python `Exception`,
so one of the two handlers always applies. -/
def mainRun (o : HttpOracle) : Outcome :=
  match mainBody o with
  | .ok evs => .returned evs
  | .error e => .returned (errEvents e)

/-- Top-level field names of a JSON object. -/
def topKeys : JVal → List String
  | .obj kvs => kvs.map (fun kv => kv.1)
  | _ => []

/-- Field names of a request's JSON body. -/
def bodyKeys (r : Request) : List String :=
  match r.body with
  | some v => topKeys v
  | none => []

/-- Names of the query parameters of a request. -/
def paramKeys (ps : List (String × JVal)) : List String :=
  ps.map (fun kv => kv.1)

/-- Python truthiness of an optional string argument defaulting to `None`. -/
def pyTruthyStrOpt : Option String → Bool
  | none => false
  | some s => s != ""

/-- Python truthiness of an optional integer argument defaulting to
`None`. -/
def pyTruthyIntOpt : Option Int → Bool
  | none => false
  | some n => n != 0

/-- The event list of a successful run (empty for a failed one). -/
def okEvs : Except PyExc (List Ev) → List Ev
  | .ok evs => evs
  | .error _ => []

/-- Modelled from the spec: the job lifecycle states of §4.3 (the server's
Job Queue is not part of the visible repository). -/
inductive JobStatus where
  | queued
  | processing
  | completed
  | failed
deriving Repr, DecidableEq

/-- Whether a status is terminal (`Completed` or `Failed`). -/
def JobStatus.isTerminal : JobStatus → Bool
  | .completed => true
  | .failed => true
  | _ => false

/-- Modelled from the spec: a job payload — a structured label description
or a raw command blob (§3, server code not in the repository). -/
inductive JobPayload where
  | structuredLabel (pageConfig qrData title subtitle : String) (quantity : Nat)
  | rawCommand (commandSequence : String)
deriving Repr, DecidableEq

/-- Modelled from the spec: enqueue validation — `quantity ≥ 1` for
structured jobs, non-empty payload for raw jobs (§4.2, §7). -/
def JobPayload.valid : JobPayload → Bool
  | .structuredLabel _ _ _ _ quantity => decide (1 ≤ quantity)
  | .rawCommand commandSequence => commandSequence != ""

/-- Modelled from the spec: a Job record (§3).  Timestamps are omitted —
no claim concerns them. -/
structure Job where
  id : Nat
  payload : JobPayload
  status : JobStatus
  error : Option String
deriving Repr, DecidableEq

/-- Modelled from the spec: the Job Queue's state — the owned ordered
collection of jobs (submission order) and the next id to assign
(monotonically assigned, never reused). -/
structure QueueState where
  jobs : List Job
  nextId : Nat
deriving Repr, DecidableEq

/-- The initial, empty queue. -/
def QueueState.empty : QueueState := ⟨[], 0⟩

/-- Modelled from the spec: `enqueue` (§4.2) — validates, assigns the next
id, sets `status = Queued`, appends to the back; a `ValidationError`
creates no Job record. -/
def enqueue (s : QueueState) (p : JobPayload) :
    Except String (Nat × QueueState) :=
  if p.valid then
    .ok (s.nextId,
      ⟨s.jobs ++ [⟨s.nextId, p, .queued, none⟩], s.nextId + 1⟩)
  else
    .error "ValidationError"

/-- The queue state after an `enqueue` call (unchanged when validation
rejects the payload). -/
def enqueueState (s : QueueState) (p : JobPayload) : QueueState :=
  match enqueue s p with
  | .ok r => r.2
  | .error _ => s

/-- Helper for `dequeueNext`: finds the earliest `Queued` job, returns it
with status `Processing` together with the updated job list. -/
def dequeueAux : List Job → Option (Job × List Job)
  | [] => none
  | j :: rest =>
    if j.status = .queued then
      some ({j with status := .processing},
            {j with status := .processing} :: rest)
    else
      match dequeueAux rest with
      | some (d, rest2) => some (d, j :: rest2)
      | none => none

/-- Modelled from the spec: `dequeueNext` (§4.2) — returns the earliest
`Queued` job and transitions it to `Processing`, or `none` if no job is
queued. -/
def dequeueNext (s : QueueState) : Option Job × QueueState :=
  match dequeueAux s.jobs with
  | some (j, l) => (some j, ⟨l, s.nextId⟩)
  | none => (none, s)

/-- Modelled from the spec: `markCompleted` (§4.2) — transitions a
`Processing` job to `Completed`. -/
def markCompleted (s : QueueState) (id : Nat) : QueueState :=
  ⟨s.jobs.map (fun j =>
      if j.id = id ∧ j.status = .processing then
        {j with status := .completed}
      else j),
   s.nextId⟩

/-- Modelled from the spec: `markFailed` (§4.2) — transitions a
`Processing` job to `Failed` and records the error. -/
def markFailed (s : QueueState) (id : Nat) (e : String) : QueueState :=
  ⟨s.jobs.map (fun j =>
      if j.id = id ∧ j.status = .processing then
        {j with status := .failed, error := some e}
      else j),
   s.nextId⟩

/-- Modelled from the spec: `clearCompleted` (§4.2) — removes all jobs in
a terminal status, returning the count removed. -/
def clearCompleted (s : QueueState) : Nat × QueueState :=
  ((s.jobs.filter (fun j => j.status.isTerminal)).length,
   ⟨s.jobs.filter (fun j => !j.status.isTerminal), s.nextId⟩)

/-- One mutation of the queue: any of the operations of §4.2. -/
inductive QStep : QueueState → QueueState → Prop where
  | enq (s : QueueState) (p : JobPayload) : QStep s (enqueueState s p)
  | deq (s : QueueState) : QStep s (dequeueNext s).2
  | complete (s : QueueState) (id : Nat) : QStep s (markCompleted s id)
  | fail (s : QueueState) (id : Nat) (e : String) : QStep s (markFailed s id e)
  | clear (s : QueueState) : QStep s (clearCompleted s).2

/-- A queue state reachable from the empty queue by §4.2 operations. -/
def Reachable (s : QueueState) : Prop :=
  Relation.ReflTransGen QStep QueueState.empty s

/-- The status of the job with a given id, if present. -/
def statusOf (s : QueueState) (id : Nat) : Option JobStatus :=
  (s.jobs.find? (fun j => j.id == id)).map (fun j => j.status)

/-- The transitions the spec's state machine (§4.3) allows in one queue
operation: stay put, `Queued → Processing`, or `Processing` to a terminal
status. -/
def allowedTransition (a b : JobStatus) : Prop :=
  a = b ∨ (a = .queued ∧ b = .processing) ∨
    (a = .processing ∧ (b = .completed ∨ b = .failed))

/-- Enqueue each payload in order, dropping the ones validation rejects
(a failed `enqueue` call leaves the queue unchanged). -/
def enqueueAll (s : QueueState) : List JobPayload → QueueState
  | [] => s
  | p :: ps => enqueueAll (enqueueState s p) ps

/-- Repeatedly call `dequeueNext`, collecting the returned jobs until it
returns `none` (with fuel `n`). -/
def drain : Nat → QueueState → List Job
  | 0, _ => []
  | n + 1, s =>
    match dequeueNext s with
    | (some j, s2) => j :: drain n s2
    | (none, _) => []

/-- Jobs created by a run of successful enqueues: consecutive ids from
`k`, all `Queued`, no error. -/
def queuedJobs : Nat → List JobPayload → List Job
  | _, [] => []
  | k, p :: ps => ⟨k, p, .queued, none⟩ :: queuedJobs (k + 1) ps

/-- One queue operation taking `s` to `s'` respects the job state machine
at job `id`: an existing job makes an allowed transition, and a job that
appears is created `Queued`. -/
def stepOk (s s' : QueueState) (id : Nat) : Prop :=
  (∀ st st', statusOf s id = some st → statusOf s' id = some st' →
    allowedTransition st st') ∧
  (statusOf s id = none → ∀ st', statusOf s' id = some st' → st' = .queued)

/-- The Job Queue's structural invariant: every id is below `nextId` (ids
are assigned monotonically) and no id occurs twice. -/
def QInv (s : QueueState) : Prop :=
  (∀ j ∈ s.jobs, j.id < s.nextId) ∧ (s.jobs.map (fun j => j.id)).Nodup

/-- Inversion for `Except` bind: a successful bind factors through a
successful first computation. -/
lemma exceptBind_ok {α β : Type} {x : Except PyExc α} {f : α → Except PyExc β}
    {b : β} (h : x >>= f = .ok b) : ∃ a, x = .ok a ∧ f a = .ok b := by
  cases x with
  | ok a => exact ⟨a, rfl, h⟩
  | error e => simp [Bind.bind, Except.bind] at h

/-- `dequeueAux` returns `none` exactly when no job is `Queued`. -/
lemma dequeueAux_eq_none : ∀ (l : List Job),
    dequeueAux l = none ↔ ∀ j ∈ l, j.status ≠ .queued
  | [] => by simp [dequeueAux]
  | j :: rest => by
    have ih := dequeueAux_eq_none rest
    by_cases h : j.status = .queued
    · simp [dequeueAux, h]
    · simp only [dequeueAux, if_neg h]
      cases hr : dequeueAux rest with
      | none =>
        simp only [List.mem_cons]
        constructor
        · intro _ x hx
          rcases hx with hx | hx
          · exact hx ▸ h
          · exact (ih.mp hr) x hx
        · intro _
          trivial
      | some x =>
        obtain ⟨d, rest2⟩ := x
        simp only [List.mem_cons]
        constructor
        · intro hcontra
          exact absurd hcontra (by simp)
        · intro hall
          have : dequeueAux rest = none := ih.mpr (fun y hy => hall y (Or.inr hy))
          rw [this] at hr
          exact absurd hr (by simp)

/-- `dequeueAux` skips a prefix containing no `Queued` job. -/
lemma dequeueAux_skip : ∀ (pre l : List Job),
    (∀ j ∈ pre, j.status ≠ .queued) →
    dequeueAux (pre ++ l) = (dequeueAux l).map (fun x => (x.1, pre ++ x.2))
  | [], l, _ => by
    cases h : dequeueAux l with
    | none => simp [h]
    | some x => obtain ⟨d, rest⟩ := x; simp [h]
  | j :: pre, l, hpre => by
    have h := hpre j (by simp)
    have ih := dequeueAux_skip pre l (fun x hx => hpre x (by simp [hx]))
    simp only [List.cons_append, dequeueAux, if_neg h]
    cases hr : dequeueAux l with
    | none => simp only [List.append_eq]; rw [ih, hr]; rfl
    | some x => obtain ⟨d, rest⟩ := x; simp only [List.append_eq]; rw [ih, hr]; rfl

/-- Successful `dequeueAux` decomposed: the list splits at the earliest
`Queued` job, which is returned with status `Processing`; everything else
(ids, payloads, order) is untouched. -/
lemma dequeueAux_some : ∀ (l : List Job) (d : Job) (l' : List Job),
    dequeueAux l = some (d, l') →
    ∃ pre j post, l = pre ++ j :: post ∧ (∀ x ∈ pre, x.status ≠ .queued) ∧
      j.status = .queued ∧ d = {j with status := .processing} ∧
      l' = pre ++ d :: post
  | [], d, l', h => by simp [dequeueAux] at h
  | j :: rest, d, l', h => by
    by_cases hq : j.status = .queued
    · rw [dequeueAux, if_pos hq] at h
      obtain ⟨hd, hl'⟩ := Prod.mk.injEq .. ▸ Option.some.inj h
      exact ⟨[], j, rest, by simp, by simp, hq, hd.symm, by
        simp [← hl', hd]⟩
    · rw [dequeueAux, if_neg hq] at h
      cases hr : dequeueAux rest with
      | none => rw [hr] at h; exact absurd h (by simp)
      | some x =>
        obtain ⟨d0, rest2⟩ := x
        rw [hr] at h
        obtain ⟨hd, hl'⟩ := Prod.mk.injEq .. ▸ Option.some.inj h
        obtain ⟨pre, j0, post, hrest, hpre, hq0, hd0, hrest2⟩ :=
          dequeueAux_some rest d0 rest2 hr
        refine ⟨j :: pre, j0, post, by simp [hrest], ?_, hq0, hd ▸ hd0, ?_⟩
        · intro x hx
          rcases List.mem_cons.mp hx with hx | hx
          · exact hx ▸ hq
          · exact hpre x hx
        · simp [← hl', hrest2, hd]

lemma queuedJobs_status : ∀ (ps : List JobPayload) (k : Nat),
    ∀ j ∈ queuedJobs k ps, j.status = .queued
  | [], _ => by simp [queuedJobs]
  | p :: ps, k => by
    intro j hj
    rcases List.mem_cons.mp hj with hj | hj
    · rw [hj]
    · exact queuedJobs_status ps (k + 1) j hj

lemma queuedJobs_map_payload : ∀ (ps : List JobPayload) (k : Nat),
    (queuedJobs k ps).map (fun j => j.payload) = ps
  | [], _ => rfl
  | p :: ps, k => by simp [queuedJobs, queuedJobs_map_payload ps (k + 1)]

lemma queuedJobs_map_id : ∀ (ps : List JobPayload) (k : Nat),
    (queuedJobs k ps).map (fun j => j.id) = List.range' k ps.length
  | [], _ => rfl
  | p :: ps, k => by
    simp [queuedJobs, queuedJobs_map_id ps (k + 1), List.range']

lemma queuedJobs_length : ∀ (ps : List JobPayload) (k : Nat),
    (queuedJobs k ps).length = ps.length
  | [], _ => rfl
  | p :: ps, k => by simp [queuedJobs, queuedJobs_length ps (k + 1)]

/-- `enqueueAll` appends exactly the validated payloads as fresh `Queued`
jobs with consecutive ids. -/
lemma enqueueAll_spec : ∀ (ps : List JobPayload) (js : List Job) (k : Nat),
    enqueueAll ⟨js, k⟩ ps =
      ⟨js ++ queuedJobs k (ps.filter (fun p => p.valid)),
       k + (ps.filter (fun p => p.valid)).length⟩
  | [], js, k => by simp [enqueueAll, queuedJobs]
  | p :: ps, js, k => by
    by_cases hv : p.valid
    · have hstep : enqueueState ⟨js, k⟩ p =
          ⟨js ++ [⟨k, p, .queued, none⟩], k + 1⟩ := by
        simp only [enqueueState, enqueue, if_pos hv]
      have hrec := enqueueAll_spec ps (js ++ [⟨k, p, .queued, none⟩]) (k + 1)
      show enqueueAll (enqueueState ⟨js, k⟩ p) ps = _
      rw [hstep, hrec]
      simp [hv, List.filter_cons, queuedJobs]
      omega
    · have hrec := enqueueAll_spec ps js k
      have hstep : enqueueState ⟨js, k⟩ p = ⟨js, k⟩ := by
        simp only [enqueueState, enqueue, if_neg hv]
      show enqueueAll (enqueueState ⟨js, k⟩ p) ps = _
      rw [hstep, hrec]
      simp [hv, List.filter_cons]

/-- Draining a queue whose suffix is all `Queued` (after a prefix with no
`Queued` job) returns exactly that suffix in order, each job now
`Processing`. -/
lemma drain_queued : ∀ (post pre : List Job) (k : Nat),
    (∀ j ∈ pre, j.status ≠ .queued) → (∀ j ∈ post, j.status = .queued) →
    drain post.length ⟨pre ++ post, k⟩ =
      post.map (fun j => {j with status := JobStatus.processing})
  | [], pre, k, hpre, _ => by simp [drain]
  | j :: post, pre, k, hpre, hpost => by
    have hq : j.status = .queued := hpost j (by simp)
    have hhead : dequeueAux (j :: post) =
        some ({j with status := JobStatus.processing},
              {j with status := JobStatus.processing} :: post) := by
      simp [dequeueAux, hq]
    have hskip := dequeueAux_skip pre (j :: post) hpre
    rw [hhead] at hskip
    simp only [Option.map_some'] at hskip
    have hdq : dequeueNext ⟨pre ++ j :: post, k⟩ =
        (some {j with status := JobStatus.processing},
         ⟨pre ++ {j with status := JobStatus.processing} :: post, k⟩) := by
      show (match dequeueAux (pre ++ j :: post) with
        | some (d, l) => (some d, QueueState.mk l k)
        | none => (none, QueueState.mk (pre ++ j :: post) k)) = _
      rw [hskip]
    show drain (post.length + 1) ⟨pre ++ j :: post, k⟩ = _
    rw [drain, hdq]
    show {j with status := JobStatus.processing} ::
        drain post.length
          ⟨pre ++ {j with status := JobStatus.processing} :: post, k⟩ = _
    have hassoc : pre ++ {j with status := JobStatus.processing} :: post =
        (pre ++ [{j with status := JobStatus.processing}]) ++ post := by
      simp
    have hrec := drain_queued post (pre ++ [{j with status := JobStatus.processing}]) k
      (by
        intro x hx
        rcases List.mem_append.mp hx with hx | hx
        · exact hpre x hx
        · have : x = {j with status := JobStatus.processing} := by
            simpa using hx
          rw [this]
          simp)
      (fun x hx => hpost x (by simp [hx]))
    rw [hassoc, hrec]
    simp

/-- `find?` on an append when the left part already finds something. -/
lemma find?_append_some {α : Type} {p : α → Bool} {l1 l2 : List α} {a : α}
    (h : l1.find? p = some a) : (l1 ++ l2).find? p = some a := by
  rw [List.find?_append, h]
  rfl

/-- `find?` on an append when the left part finds nothing. -/
lemma find?_append_none {α : Type} {p : α → Bool} {l1 l2 : List α}
    (h : l1.find? p = none) : (l1 ++ l2).find? p = l2.find? p := by
  rw [List.find?_append, h]
  rfl

/-- `find?` on a cons whose head satisfies the predicate. -/
lemma find?_cons_pos {α : Type} (p : α → Bool) (a : α) (l : List α)
    (h : p a = true) : (a :: l).find? p = some a := by
  simp [List.find?_cons, h]

/-- `find?` on a cons whose head fails the predicate. -/
lemma find?_cons_neg {α : Type} (p : α → Bool) (a : α) (l : List α)
    (h : ¬p a = true) : (a :: l).find? p = l.find? p := by
  simp [List.find?_cons, h]

lemma stepOk_refl (s : QueueState) (id : Nat) : stepOk s s id := by
  constructor
  · intro st st' h h'
    rw [h] at h'
    exact Or.inl (Option.some.inj h')
  · intro h st' h'
    rw [h] at h'
    exact absurd h' (by simp)

lemma stepOk_enqueueState (s : QueueState) (p : JobPayload) (id : Nat) :
    stepOk s (enqueueState s p) id := by
  by_cases hv : p.valid
  · have hstep : enqueueState s p =
        ⟨s.jobs ++ [⟨s.nextId, p, .queued, none⟩], s.nextId + 1⟩ := by
      simp only [enqueueState, enqueue, if_pos hv]
    rw [hstep]
    constructor
    · intro st st' h h'
      obtain ⟨j, hj, hjst⟩ := Option.map_eq_some'.mp h
      rw [statusOf] at h'
      rw [find?_append_some hj] at h'
      simp only [Option.map_some'] at h'
      left
      rw [← hjst]
      exact Option.some.inj h'
    · intro h st' h'
      have hnone := Option.map_eq_none'.mp h
      rw [statusOf] at h'
      rw [find?_append_none hnone, List.find?_singleton] at h'
      by_cases hid : (⟨s.nextId, p, JobStatus.queued, none⟩ : Job).id == id
      · rw [if_pos hid] at h'
        simpa using h'.symm
      · rw [if_neg hid] at h'
        exact absurd h' (by simp)
  · have hstep : enqueueState s p = s := by
      simp only [enqueueState, enqueue, if_neg hv]
    rw [hstep]
    exact stepOk_refl s id

lemma stepOk_dequeueNext (s : QueueState) (id : Nat) :
    stepOk s (dequeueNext s).2 id := by
  cases hda : dequeueAux s.jobs with
  | none =>
    have hsame : (dequeueNext s).2 = s := by
      rw [dequeueNext, hda]
    rw [hsame]
    exact stepOk_refl s id
  | some x =>
    obtain ⟨d, l'⟩ := x
    obtain ⟨pre, j, post, hjobs, hpre, hjq, hd, hl'⟩ :=
      dequeueAux_some s.jobs d l' hda
    have hsnd : (dequeueNext s).2 = ⟨l', s.nextId⟩ := by
      rw [dequeueNext, hda]
    rw [hsnd, hl']
    have hsof : statusOf s id =
        ((pre ++ j :: post).find? (fun x => x.id == id)).map
          (fun j => j.status) := by
      rw [statusOf, hjobs]
    constructor
    · intro st st' h h'
      rw [hsof] at h
      rw [statusOf] at h'
      cases h1 : pre.find? (fun x => x.id == id) with
      | some y =>
        rw [find?_append_some h1] at h
        rw [find?_append_some h1] at h'
        rw [h] at h'
        exact Or.inl (Option.some.inj h')
      | none =>
        rw [find?_append_none h1] at h
        rw [find?_append_none h1] at h'
        by_cases hid : (j.id == id) = true
        · rw [find?_cons_pos (fun x => x.id == id) j post hid] at h
          have hid' : (d.id == id) = true := by rw [hd]; exact hid
          rw [find?_cons_pos (fun x => x.id == id) d post hid'] at h'
          simp only [Option.map_some'] at h h'
          have hst : st = JobStatus.queued := by
            have := Option.some.inj h
            rw [← this, hjq]
          have hst' : st' = JobStatus.processing := by
            have := Option.some.inj h'
            rw [← this, hd]
          right; left
          exact ⟨hst, hst'⟩
        · have hid' : ¬(d.id == id) = true := by rw [hd]; exact hid
          rw [find?_cons_neg (fun x => x.id == id) j post hid] at h
          rw [find?_cons_neg (fun x => x.id == id) d post hid'] at h'
          rw [h] at h'
          exact Or.inl (Option.some.inj h')
    · intro h st' h'
      rw [hsof] at h
      rw [statusOf] at h'
      have hnone := Option.map_eq_none'.mp h
      cases h1 : pre.find? (fun x => x.id == id) with
      | some y =>
        rw [find?_append_some h1] at hnone
        exact absurd hnone (by simp)
      | none =>
        rw [find?_append_none h1] at hnone
        rw [find?_append_none h1] at h'
        by_cases hid : (j.id == id) = true
        · rw [find?_cons_pos (fun x => x.id == id) j post hid] at hnone
          exact absurd hnone (by simp)
        · have hid' : ¬(d.id == id) = true := by rw [hd]; exact hid
          rw [find?_cons_neg (fun x => x.id == id) j post hid] at hnone
          rw [find?_cons_neg (fun x => x.id == id) d post hid'] at h'
          rw [hnone] at h'
          exact absurd h' (by simp)

/-- Any per-job rewrite that keeps ids and makes only allowed status
transitions yields an allowed step. -/
lemma stepOk_mapStatus (s : QueueState) (f : Job → Job)
    (hid : ∀ j, (f j).id = j.id)
    (hst : ∀ j, allowedTransition j.status (f j).status) (id : Nat) :
    stepOk s ⟨s.jobs.map f, s.nextId⟩ id := by
  have hq : ((fun x => x.id == id) ∘ f) = fun x => x.id == id := by
    funext j
    simp [hid j]
  constructor
  · intro st st' h h'
    rw [statusOf] at h'
    rw [List.find?_map, hq] at h'
    obtain ⟨j, hj, hjst⟩ := Option.map_eq_some'.mp h
    rw [hj] at h'
    simp only [Option.map_map, Option.map_some'] at h'
    have := Option.some.inj h'
    rw [← hjst, ← this]
    exact hst j
  · intro h st' h'
    have hnone := Option.map_eq_none'.mp h
    rw [statusOf, List.find?_map, hq, hnone] at h'
    exact absurd h' (by simp)

lemma stepOk_markCompleted (s : QueueState) (jid : Nat) (id : Nat) :
    stepOk s (markCompleted s jid) id := by
  refine stepOk_mapStatus s _ ?_ ?_ id
  · intro j
    by_cases h : j.id = jid ∧ j.status = .processing <;> simp [h]
  · intro j
    by_cases h : j.id = jid ∧ j.status = .processing
    · simp only [if_pos h]
      exact Or.inr (Or.inr ⟨h.2, Or.inl rfl⟩)
    · simp only [if_neg h]
      exact Or.inl rfl

lemma stepOk_markFailed (s : QueueState) (jid : Nat) (e : String) (id : Nat) :
    stepOk s (markFailed s jid e) id := by
  refine stepOk_mapStatus s _ ?_ ?_ id
  · intro j
    by_cases h : j.id = jid ∧ j.status = .processing <;> simp [h]
  · intro j
    by_cases h : j.id = jid ∧ j.status = .processing
    · simp only [if_pos h]
      exact Or.inr (Or.inr ⟨h.2, Or.inr rfl⟩)
    · simp only [if_neg h]
      exact Or.inl rfl

lemma stepOk_clearCompleted (s : QueueState) (hinv : QInv s) (id : Nat) :
    stepOk s (clearCompleted s).2 id := by
  constructor
  · intro st st' h h'
    left
    obtain ⟨j1, hj1, hst1⟩ := Option.map_eq_some'.mp h
    obtain ⟨j2, hj2, hst2⟩ := Option.map_eq_some'.mp h'
    have hm1 : j1 ∈ s.jobs := List.mem_of_find?_eq_some hj1
    have hm2 : j2 ∈ s.jobs :=
      List.mem_of_mem_filter (List.mem_of_find?_eq_some hj2)
    have hq1 := List.find?_some hj1
    have hq2 := List.find?_some hj2
    simp only [beq_iff_eq] at hq1 hq2
    have hideq : j1.id = j2.id := by rw [hq1, hq2]
    have : j1 = j2 := List.inj_on_of_nodup_map hinv.2 hm1 hm2 hideq
    rw [← hst1, ← hst2, this]
  · intro h st' h'
    exfalso
    obtain ⟨j2, hj2, _⟩ := Option.map_eq_some'.mp h'
    have hm2 : j2 ∈ s.jobs :=
      List.mem_of_mem_filter (List.mem_of_find?_eq_some hj2)
    have hq2 := List.find?_some hj2
    have hnone := Option.map_eq_none'.mp h
    exact List.find?_eq_none.mp hnone j2 hm2 hq2

lemma qinv_empty : QInv QueueState.empty := by
  constructor
  · intro j hj
    simp [QueueState.empty] at hj
  · simp [QueueState.empty]

lemma qinv_enqueueState (s : QueueState) (p : JobPayload) (h : QInv s) :
    QInv (enqueueState s p) := by
  by_cases hv : p.valid
  · have hstep : enqueueState s p =
        ⟨s.jobs ++ [⟨s.nextId, p, .queued, none⟩], s.nextId + 1⟩ := by
      simp only [enqueueState, enqueue, if_pos hv]
    rw [hstep]
    constructor
    · intro j hj
      rcases List.mem_append.mp hj with hj | hj
      · exact Nat.lt_trans (h.1 j hj) (Nat.lt_succ_self _)
      · have : j = ⟨s.nextId, p, .queued, none⟩ := by simpa using hj
        rw [this]
        exact Nat.lt_succ_self _
    · show ((s.jobs ++ [(⟨s.nextId, p, .queued, none⟩ : Job)]).map
        (fun j => j.id)).Nodup
      rw [List.map_append]
      refine List.Nodup.append h.2 (List.nodup_singleton _) ?_
      intro a ha hb
      obtain ⟨j, hj, rfl⟩ := List.mem_map.mp ha
      have hlt := h.1 j hj
      have : j.id = s.nextId := by simpa using hb
      omega
  · have hstep : enqueueState s p = s := by
      simp only [enqueueState, enqueue, if_neg hv]
    rw [hstep]
    exact h

lemma qinv_dequeueNext (s : QueueState) (h : QInv s) : QInv (dequeueNext s).2 := by
  cases hda : dequeueAux s.jobs with
  | none =>
    have hsame : (dequeueNext s).2 = s := by rw [dequeueNext, hda]
    rw [hsame]
    exact h
  | some x =>
    obtain ⟨d, l'⟩ := x
    obtain ⟨pre, j, post, hjobs, _, _, hd, hl'⟩ :=
      dequeueAux_some s.jobs d l' hda
    have hsnd : (dequeueNext s).2 = ⟨l', s.nextId⟩ := by rw [dequeueNext, hda]
    rw [hsnd, hl']
    constructor
    · intro x hx
      rcases List.mem_append.mp hx with hx | hx
      · exact h.1 x (by rw [hjobs]; exact List.mem_append_left _ hx)
      · rcases List.mem_cons.mp hx with hx | hx
        · rw [hx, hd]
          exact h.1 j (by rw [hjobs]; exact List.mem_append_right _ (by simp))
        · exact h.1 x
            (by rw [hjobs]; exact List.mem_append_right _ (by simp [hx]))
    · show ((pre ++ d :: post).map (fun j => j.id)).Nodup
      have hids : (pre ++ d :: post).map (fun j => j.id) =
          s.jobs.map (fun j => j.id) := by
        rw [hjobs]
        simp [hd]
      rw [hids]
      exact h.2

lemma qinv_mapStatus (s : QueueState) (f : Job → Job)
    (hid : ∀ j, (f j).id = j.id) (h : QInv s) :
    QInv ⟨s.jobs.map f, s.nextId⟩ := by
  constructor
  · intro x hx
    obtain ⟨j, hj, rfl⟩ := List.mem_map.mp hx
    rw [hid j]
    exact h.1 j hj
  · show ((s.jobs.map f).map (fun j => j.id)).Nodup
    rw [List.map_map]
    have heq : ((fun j => j.id) ∘ f) = fun j : Job => j.id := by
      funext j
      exact hid j
    rw [heq]
    exact h.2

lemma qinv_clearCompleted (s : QueueState) (h : QInv s) :
    QInv (clearCompleted s).2 := by
  constructor
  · intro x hx
    exact h.1 x (List.mem_of_mem_filter hx)
  · show ((s.jobs.filter (fun j => !j.status.isTerminal)).map
        (fun j => j.id)).Nodup
    exact List.Nodup.sublist (List.Sublist.map _ (List.filter_sublist _)) h.2

/-- Every reachable queue state satisfies the id invariant. -/
lemma reachable_qinv (s : QueueState) (h : Reachable s) : QInv s := by
  have h' : Relation.ReflTransGen QStep QueueState.empty s := h
  clear h
  induction h' with
  | refl => exact qinv_empty
  | @tail b c hsteps hstep ih =>
    cases hstep with
    | enq p => exact qinv_enqueueState b p ih
    | deq => exact qinv_dequeueNext b ih
    | complete jid =>
      exact qinv_mapStatus b _
        (fun j => by
          by_cases hc : j.id = jid ∧ j.status = .processing <;> simp [hc]) ih
    | fail jid e =>
      exact qinv_mapStatus b _
        (fun j => by
          by_cases hc : j.id = jid ∧ j.status = .processing <;> simp [hc]) ih
    | clear => exact qinv_clearCompleted b ih

/-- C4: for every sequence of enqueue calls on the empty queue, repeated
`dequeueNext` calls return the (validated) jobs in strict FIFO submission
order — payloads in submission order and ids `0, 1, 2, …` — a successful
`dequeueNext` returns the earliest `Queued` job, and `dequeueNext` returns
`none` exactly when no `Queued` job exists. -/
theorem C4_dequeue_fifo :
    (∀ ps : List JobPayload,
      (drain (enqueueAll QueueState.empty ps).jobs.length
          (enqueueAll QueueState.empty ps)).map (fun j => j.payload) =
        ps.filter (fun p => p.valid) ∧
      (drain (enqueueAll QueueState.empty ps).jobs.length
          (enqueueAll QueueState.empty ps)).map (fun j => j.id) =
        List.range (ps.filter (fun p => p.valid)).length) ∧
    (∀ s d s2, dequeueNext s = (some d, s2) →
      ∃ pre j post, s.jobs = pre ++ j :: post ∧
        (∀ x ∈ pre, x.status ≠ .queued) ∧ j.status = .queued ∧
        d = {j with status := .processing}) ∧
    (∀ s : QueueState, (dequeueNext s).1 = none ↔
      ∀ j ∈ s.jobs, j.status ≠ .queued) := by
  refine ⟨?_, ?_, ?_⟩
  · intro ps
    have hall : enqueueAll QueueState.empty ps =
        ⟨queuedJobs 0 (ps.filter (fun p => p.valid)),
         (ps.filter (fun p => p.valid)).length⟩ := by
      have h := enqueueAll_spec ps [] 0
      simpa [QueueState.empty] using h
    rw [hall]
    have hdrain := drain_queued (queuedJobs 0 (ps.filter (fun p => p.valid)))
      [] ((ps.filter (fun p => p.valid)).length)
      (by simp) (queuedJobs_status _ 0)
    rw [List.nil_append] at hdrain
    show (drain (queuedJobs 0 (ps.filter (fun p => p.valid))).length
        ⟨queuedJobs 0 (ps.filter (fun p => p.valid)),
         (ps.filter (fun p => p.valid)).length⟩).map (fun j => j.payload) =
        ps.filter (fun p => p.valid) ∧
      (drain (queuedJobs 0 (ps.filter (fun p => p.valid))).length
        ⟨queuedJobs 0 (ps.filter (fun p => p.valid)),
         (ps.filter (fun p => p.valid)).length⟩).map (fun j => j.id) =
        List.range (ps.filter (fun p => p.valid)).length
    rw [hdrain]
    constructor
    · rw [List.map_map]
      have hcomp : ((fun j => j.payload) ∘
          (fun j : Job => {j with status := JobStatus.processing})) =
          fun j : Job => j.payload := by
        funext j
        rfl
      rw [hcomp, queuedJobs_map_payload]
    · rw [List.map_map]
      have hcomp : ((fun j => j.id) ∘
          (fun j : Job => {j with status := JobStatus.processing})) =
          fun j : Job => j.id := by
        funext j
        rfl
      rw [hcomp, queuedJobs_map_id, List.range_eq_range']
  · intro s d s2 h
    cases hda : dequeueAux s.jobs with
    | none =>
      rw [dequeueNext, hda] at h
      exact absurd (congrArg Prod.fst h) (by simp)
    | some x =>
      obtain ⟨d0, l'⟩ := x
      rw [dequeueNext, hda] at h
      have hd0 : d0 = d := by
        have := congrArg Prod.fst h
        simpa using this
      obtain ⟨pre, j, post, hjobs, hpre, hjq, hdd, _⟩ :=
        dequeueAux_some s.jobs d0 l' hda
      exact ⟨pre, j, post, hjobs, hpre, hjq, hd0 ▸ hdd⟩
  · intro s
    cases hda : dequeueAux s.jobs with
    | none =>
      have h1 : (dequeueNext s).1 = none := by rw [dequeueNext, hda]
      rw [h1]
      constructor
      · intro _
        exact (dequeueAux_eq_none s.jobs).mp hda
      · intro _
        rfl
    | some x =>
      obtain ⟨d, l'⟩ := x
      have h1 : (dequeueNext s).1 = some d := by rw [dequeueNext, hda]
      rw [h1]
      constructor
      · intro hcontra
        exact absurd hcontra (by simp)
      · intro hall
        have hn := (dequeueAux_eq_none s.jobs).mpr hall
        rw [hn] at hda
        exact absurd hda (by simp)

/-- C4 witness: concrete two-job run — enqueueing "A" then "B" and
draining yields ids `[0, 1]` in order, and on a concrete one-job queue
`dequeueNext` returns the earliest queued job. -/
theorem C4_dequeue_fifo_witness :
    (drain (enqueueAll QueueState.empty
        [JobPayload.rawCommand "A", JobPayload.rawCommand "B"]).jobs.length
      (enqueueAll QueueState.empty
        [JobPayload.rawCommand "A", JobPayload.rawCommand "B"])).map
        (fun j => j.id) =
      List.range ([JobPayload.rawCommand "A",
        JobPayload.rawCommand "B"].filter (fun p => p.valid)).length ∧
    (∃ pre j post,
      (⟨[⟨5, JobPayload.rawCommand "A", JobStatus.queued, none⟩], 6⟩ :
        QueueState).jobs = pre ++ j :: post ∧
      (∀ x ∈ pre, x.status ≠ .queued) ∧ j.status = .queued ∧
      (⟨5, JobPayload.rawCommand "A", JobStatus.processing, none⟩ : Job) =
        {j with status := .processing}) :=
  ⟨(C4_dequeue_fifo.1 [JobPayload.rawCommand "A",
      JobPayload.rawCommand "B"]).2,
   C4_dequeue_fifo.2.1
     ⟨[⟨5, JobPayload.rawCommand "A", JobStatus.queued, none⟩], 6⟩
     ⟨5, JobPayload.rawCommand "A", JobStatus.processing, none⟩
     ⟨[⟨5, JobPayload.rawCommand "A", JobStatus.processing, none⟩], 6⟩
     rfl⟩

/-- C5: along every queue operation from a reachable state, a job's status
moves only along Queued, then Processing, then Completed or Failed
(staying put is allowed), and a job that first appears is created
`Queued`; in
particular `Completed` and `Failed` are terminal and no job re-enters
`Queued`. -/
theorem C5_job_status_transitions (s s' : QueueState) (hreach : Reachable s)
    (hstep : QStep s s') (id : Nat) : stepOk s s' id := by
  cases hstep with
  | enq p => exact stepOk_enqueueState s p id
  | deq => exact stepOk_dequeueNext s id
  | complete jid => exact stepOk_markCompleted s jid id
  | fail jid e => exact stepOk_markFailed s jid e id
  | clear => exact stepOk_clearCompleted s (reachable_qinv s hreach) id

/-- C5 witness: on the concrete queue holding the single enqueued raw job
"X", the dequeue step takes job 0 from `Queued` to `Processing`, an
allowed transition. -/
theorem C5_job_status_transitions_witness :
    allowedTransition JobStatus.queued JobStatus.processing :=
  (C5_job_status_transitions
    (enqueueState QueueState.empty (.rawCommand "X"))
    (dequeueNext (enqueueState QueueState.empty (.rawCommand "X"))).2
    (Relation.ReflTransGen.single
      (QStep.enq QueueState.empty (.rawCommand "X")))
    (QStep.deq (enqueueState QueueState.empty (.rawCommand "X"))) 0).1
    JobStatus.queued JobStatus.processing rfl rfl

/-- A bind that only repackages the result is a map. -/
lemma bind_pure_eq_map {α β : Type} (x : Except PyExc α) (g : α → β) :
    (x >>= fun a => pure (g a)) = x.map g := by
  cases x <;> rfl

/-- A successful run of the workflow always contains the structured print
submission with `mainLabelData` as the body, whatever the other steps
did. -/
lemma mainBody_print_call (o : HttpOracle) (evs : List Ev)
    (h : mainBody o = .ok evs) :
    Ev.call (print_label_request mainLabelData) ∈ evs := by
  rw [mainBody] at h
  obtain ⟨⟨e1, printers⟩, h1, h⟩ := exceptBind_ok h
  obtain ⟨e2, h2, h⟩ := exceptBind_ok h
  obtain ⟨⟨e3, print_job⟩, h3, h⟩ := exceptBind_ok h
  obtain ⟨e4, h4, h⟩ := exceptBind_ok h
  obtain ⟨⟨e5, r5⟩, h5, h⟩ := exceptBind_ok h
  obtain ⟨⟨e6, r6⟩, h6, h⟩ := exceptBind_ok h
  have hevs : evs =
      [Ev.printed (.line "=== Label Printer API Example ===\n")]
        ++ e1 ++ [sepEv] ++ e2 ++ e3 ++ [sepEv] ++ e4 ++ e5 ++ [sepEv] ++ e6
        ++ [Ev.printed (.line "\n=== Example completed ===")] :=
    (Except.ok.inj h).symm
  rw [print_label] at h3
  obtain ⟨resp, hr, h3'⟩ := exceptBind_ok h3
  have he3 : e3 = [Ev.printed (.line "Submitting print job..."),
      Ev.call (print_label_request mainLabelData),
      Ev.printed (.labeledJson "Job created: " resp)] :=
    (congrArg Prod.fst (Except.ok.inj h3')).symm
  rw [hevs]
  apply List.mem_append_left
  apply List.mem_append_left
  apply List.mem_append_left
  apply List.mem_append_left
  apply List.mem_append_left
  apply List.mem_append_left
  apply List.mem_append_right
  rw [he3]
  simp

/-- When the printers guard is falsy the whole connect block is skipped:
no connect, no status call, no output. -/
lemma connectStep_skip (o : HttpOracle) (printers : JVal)
    (h : printersGuard printers = .ok false) :
    connectStep o printers = .ok [] := by
  rw [connectStep, h]
  rfl

/-- When the printers guard holds, a successful connect block issues both
the connect call and the status call. -/
lemma connectStep_calls (o : HttpOracle) (printers : JVal) (evs : List Ev)
    (hg : printersGuard printers = .ok true)
    (h : connectStep o printers = .ok evs) :
    (∃ v p, Ev.call (connect_printer_request v p) ∈ evs) ∧
      Ev.call get_printer_status_request ∈ evs := by
  rw [connectStep, hg] at h
  obtain ⟨g, hgeq, h⟩ := exceptBind_ok h
  have hgt : true = g := Except.ok.inj hgeq
  subst hgt
  rw [if_pos rfl] at h
  obtain ⟨plist, h1, h⟩ := exceptBind_ok h
  obtain ⟨printer, h2, h⟩ := exceptBind_ok h
  obtain ⟨v, h3, h⟩ := exceptBind_ok h
  obtain ⟨p, h4, h⟩ := exceptBind_ok h
  obtain ⟨⟨ec, rc⟩, h5, h⟩ := exceptBind_ok h
  obtain ⟨⟨es, rs⟩, h6, h⟩ := exceptBind_ok h
  have hevs : evs = ec ++ [sepEv] ++ es ++ [sepEv] := (Except.ok.inj h).symm
  rw [connect_printer] at h5
  obtain ⟨respc, hrc, h5'⟩ := exceptBind_ok h5
  have hec : ec = [Ev.printed (.line ("Connecting to printer " ++ pyStr v
        ++ ":" ++ pyStr p ++ "...")),
      Ev.call (connect_printer_request v p),
      Ev.printed (.jsonOf respc)] :=
    (congrArg Prod.fst (Except.ok.inj h5')).symm
  rw [get_printer_status] at h6
  obtain ⟨resps, hrs, h6'⟩ := exceptBind_ok h6
  have hes : es = [Ev.printed (.line "Getting printer status..."),
      Ev.call get_printer_status_request,
      Ev.printed (.jsonOf resps)] :=
    (congrArg Prod.fst (Except.ok.inj h6')).symm
  rw [hevs]
  constructor
  · refine ⟨v, p, ?_⟩
    apply List.mem_append_left
    apply List.mem_append_left
    apply List.mem_append_left
    rw [hec]
    simp
  · apply List.mem_append_left
    apply List.mem_append_right
    rw [hes]
    simp

/-- When the guard saw a non-empty `printers` list, the indexing
`printers['printers'][0]` cannot fail. -/
lemma printersGuard_arr_access (kvs : List (String × JVal)) (xs : List JVal)
    (hlook : kvs.lookup "printers" = some (.arr xs))
    (hg : printersGuard (.obj kvs) = .ok true) :
    ∃ v, (pySubscriptStr (.obj kvs) "printers" >>= fun l =>
      pySubscriptNat l 0) = .ok v := by
  cases xs with
  | nil =>
    exfalso
    rw [printersGuard] at hg
    obtain ⟨g, hgeq, hg⟩ := exceptBind_ok hg
    have hgv : (kvs.lookup "printers").getD .null = g := Except.ok.inj hgeq
    rw [hlook, Option.getD_some] at hgv
    subst hgv
    rw [if_neg (by simp [JVal.truthy])] at hg
    exact absurd (Except.ok.inj hg) (by simp)
  | cons x xs =>
    exact ⟨x, by simp [pySubscriptStr, hlook, pySubscriptNat,
      Bind.bind, Except.bind]⟩

/-- When the job guard holds, the lookups `print_job['job']['id']` cannot
fail. -/
lemma jobGuard_id_access (pj : JVal) (hg : jobGuard pj = .ok true) :
    ∃ v, (pySubscriptStr pj "job" >>= fun j =>
      pySubscriptStr j "id") = .ok v := by
  rw [jobGuard] at hg
  obtain ⟨j, h1, hg⟩ := exceptBind_ok hg
  by_cases hj : j.truthy = true
  · rw [if_pos hj] at hg
    obtain ⟨jv, h2, hg⟩ := exceptBind_ok hg
    obtain ⟨i, h3, hg⟩ := exceptBind_ok hg
    have hi : i.truthy = true := Except.ok.inj hg
    cases jv with
    | obj jkvs =>
      have hgv : (jkvs.lookup "id").getD .null = i := Except.ok.inj h3
      cases hlk : jkvs.lookup "id" with
      | none =>
        rw [hlk] at hgv
        simp only [Option.getD_none] at hgv
        rw [← hgv] at hi
        exact absurd hi (by simp [JVal.truthy])
      | some w =>
        rw [hlk, Option.getD_some] at hgv
        refine ⟨w, ?_⟩
        rw [h2]
        simp [pySubscriptStr, hlk, Bind.bind, Except.bind]
    | null => exact absurd h3 (by simp [pyDictGet])
    | bool b => exact absurd h3 (by simp [pyDictGet])
    | num n => exact absurd h3 (by simp [pyDictGet])
    | str s => exact absurd h3 (by simp [pyDictGet])
    | arr l => exact absurd h3 (by simp [pyDictGet])
  · rw [if_neg hj] at hg
    exact absurd (Except.ok.inj hg) (by simp)

/-- C1: `print_label` transmits its `label_data` argument unchanged as the
POST body of the submit endpoint, and `main` constructs that argument with
precisely the fields `pageConfig`, `label.qrData`, `label.title`,
`label.subtitle` and `quantity`; a successful run always issues that
request. -/
theorem C1_structured_submit_shape :
    (∀ d : JVal, print_label_request d =
      { method := "POST", path := "/print", body := some d, params := [] }) ∧
    topKeys mainLabelData = ["pageConfig", "label", "quantity"] ∧
    pyDictGet mainLabelData "label" =
      .ok (.obj [("qrData", .str "https://example.com/product/ABC-123"),
                 ("title", .str "PRODUCT-ABC-123"),
                 ("subtitle", .str "Batch: 2026-01-15")]) ∧
    topKeys (.obj [("qrData", .str "https://example.com/product/ABC-123"),
                   ("title", .str "PRODUCT-ABC-123"),
                   ("subtitle", .str "Batch: 2026-01-15")]) =
      ["qrData", "title", "subtitle"] ∧
    (∀ (o : HttpOracle) (evs : List Ev), mainBody o = .ok evs →
      Ev.call (print_label_request mainLabelData) ∈ evs) :=
  ⟨fun _ => rfl, rfl, rfl, rfl, mainBody_print_call⟩

/-- C1 witness: on the oracle answering every request with an empty JSON
object, the workflow's successful trace contains the structured print
request carrying `mainLabelData`. -/
theorem C1_structured_submit_shape_witness :
    Ev.call (print_label_request mainLabelData) ∈
      okEvs (mainBody (fun _ => .ok (.obj []))) :=
  C1_structured_submit_shape.2.2.2.2 (fun _ => .ok (.obj []))
    (okEvs (mainBody (fun _ => .ok (.obj [])))) rfl

/-- C2 counterexample: the raw-job body's single field is named `tspl`,
not `commandSequence` — shown at the concrete payload "SIZE 40,30". -/
theorem C2_raw_submit_counterexample :
    bodyKeys (print_custom_tspl_request (.str "SIZE 40,30")) = ["tspl"] ∧
    ¬ bodyKeys (print_custom_tspl_request (.str "SIZE 40,30")) =
        ["commandSequence"] :=
  ⟨rfl, by decide⟩

/-- C2 amended: for every raw job submission, the request body is a JSON
object whose single field is named `tspl` carrying the raw command
payload. -/
theorem C2_raw_submit_amended :
    ∀ t : JVal, print_custom_tspl_request t =
      { method := "POST", path := "/print/custom",
        body := some (.obj [("tspl", t)]), params := [] } :=
  fun _ => rfl

/-- C3: every client operation is pure request construction and response
echoing — each function's result is exactly the JSON-decoded response of
its request, returned unmodified after being printed (the printed events
include the decoded value). -/
theorem C3_response_echo (o : HttpOracle) :
    list_printers o = (o list_printers_request).map (fun resp =>
      ([Ev.printed (.line "Listing available printers..."),
        Ev.call list_printers_request,
        Ev.printed (.jsonOf resp)], resp)) ∧
    (∀ v p, connect_printer o v p =
      (o (connect_printer_request v p)).map (fun resp =>
        ([Ev.printed (.line ("Connecting to printer " ++ pyStr v ++ ":"
            ++ pyStr p ++ "...")),
          Ev.call (connect_printer_request v p),
          Ev.printed (.jsonOf resp)], resp))) ∧
    get_printer_status o = (o get_printer_status_request).map (fun resp =>
      ([Ev.printed (.line "Getting printer status..."),
        Ev.call get_printer_status_request,
        Ev.printed (.jsonOf resp)], resp)) ∧
    (∀ d, print_label o d = (o (print_label_request d)).map (fun resp =>
      ([Ev.printed (.line "Submitting print job..."),
        Ev.call (print_label_request d),
        Ev.printed (.labeledJson "Job created: " resp)], resp))) ∧
    (∀ t, print_custom_tspl o t =
      (o (print_custom_tspl_request t)).map (fun resp =>
        ([Ev.printed (.line "Submitting custom TSPL job..."),
          Ev.call (print_custom_tspl_request t),
          Ev.printed (.labeledJson "Job created: " resp)], resp))) ∧
    (∀ i, check_job_status o i =
      (o (check_job_status_request i)).map (fun resp =>
        ([Ev.printed (.line ("Checking job " ++ pyStr i ++ "...")),
          Ev.call (check_job_status_request i),
          Ev.printed (.jsonOf resp)], resp))) ∧
    (∀ st lim, list_jobs o st lim =
      (o (list_jobs_request st lim)).map (fun resp =>
        ([Ev.printed (.line "Listing jobs..."),
          Ev.call (list_jobs_request st lim),
          Ev.printed (.jsonOf resp)], resp))) ∧
    get_queue_stats o = (o get_queue_stats_request).map (fun resp =>
      ([Ev.printed (.line "Getting queue statistics..."),
        Ev.call get_queue_stats_request,
        Ev.printed (.jsonOf resp)], resp)) ∧
    clear_completed_jobs o = (o clear_completed_jobs_request).map (fun resp =>
      ([Ev.printed (.line "Clearing completed jobs..."),
        Ev.call clear_completed_jobs_request,
        Ev.printed (.jsonOf resp)], resp)) :=
  ⟨bind_pure_eq_map _ _, fun _ _ => bind_pure_eq_map _ _,
   bind_pure_eq_map _ _, fun _ => bind_pure_eq_map _ _,
   fun _ => bind_pure_eq_map _ _, fun _ => bind_pure_eq_map _ _,
   fun _ _ => bind_pure_eq_map _ _, bind_pure_eq_map _ _,
   bind_pure_eq_map _ _⟩

/-- C6: for every pair of integers, the connect operation POSTs exactly
the body with fields vendorId and productId. -/
theorem C6_connect_body :
    ∀ v p : Int, connect_printer_request (.num v) (.num p) =
      { method := "POST", path := "/printers/connect",
        body := some (.obj [("vendorId", .num v), ("productId", .num p)]),
        params := [] } :=
  fun _ _ => rfl

/-- C7 counterexample: supplying `limit=0` to `list_jobs` supplies the
argument yet the `limit` query parameter is absent, refuting the claimed
present-iff-supplied equivalence. -/
theorem C7_list_jobs_counterexample :
    ¬ (("limit" ∈ paramKeys (list_jobs_params none (some 0))) ↔
        (some 0 : Option Int) ≠ none) := by
  decide

/-- C7 amended: a query parameter is present exactly when the
corresponding argument is supplied and truthy (non-empty string, non-zero
integer); with neither argument the request carries no query
parameters. -/
theorem C7_list_jobs_params_amended :
    (∀ (status : Option String) (limit : Option Int),
      (("status" ∈ paramKeys (list_jobs_params status limit)) ↔
        pyTruthyStrOpt status = true) ∧
      (("limit" ∈ paramKeys (list_jobs_params status limit)) ↔
        pyTruthyIntOpt limit = true)) ∧
    list_jobs_params none none = [] := by
  refine ⟨?_, rfl⟩
  intro status limit
  cases status with
  | none =>
    cases limit with
    | none =>
      simp [list_jobs_params, paramKeys, pyTruthyStrOpt, pyTruthyIntOpt]
    | some n =>
      by_cases hn : n = 0 <;>
        simp [list_jobs_params, paramKeys, pyTruthyStrOpt, pyTruthyIntOpt, hn]
  | some s =>
    cases limit with
    | none =>
      by_cases hs : s = "" <;>
        simp [list_jobs_params, paramKeys, pyTruthyStrOpt, pyTruthyIntOpt, hs]
    | some n =>
      by_cases hs : s = "" <;> by_cases hn : n = 0 <;>
        simp [list_jobs_params, paramKeys, pyTruthyStrOpt, pyTruthyIntOpt,
          hs, hn]

/-- C8: because parameter inclusion is decided by truthiness, `limit=0`
behaves exactly like an omitted limit and `status=""` exactly like an
omitted status; with both falsy values the request carries no query
parameters at all. -/
theorem C8_falsy_args_omitted :
    (∀ (st : Option String) (lim : Option Int),
      list_jobs_params st (some 0) = list_jobs_params st none ∧
      list_jobs_params (some "") lim = list_jobs_params none lim) ∧
    list_jobs_params (some "") (some 0) = [] ∧
    list_jobs_request (some "") (some 0) = list_jobs_request none none := by
  refine ⟨?_, rfl, rfl⟩
  intro st lim
  constructor
  · cases st <;> simp [list_jobs_params]
  · cases lim <;> simp [list_jobs_params]

/-- C9: `main` is total — for every behaviour of the HTTP calls it returns
normally; every exception of the workflow is caught and turned into
printed error output, and a `ConnectionError` yields exactly the two-line
hint naming port 3000. -/
theorem C9_main_total (o : HttpOracle) :
    (mainRun o).isReturned = true ∧
    (∀ e, mainBody o = .error e → mainRun o = .returned (errEvents e)) ∧
    errEvents .connectionError =
      [Ev.printed (.line "Error: Could not connect to API server."),
       Ev.printed (.line "Make sure the Label Printer Server is running on port 3000.")] := by
  refine ⟨?_, ?_, rfl⟩
  · cases h : mainBody o with
    | ok evs =>
      rw [mainRun, h]
      rfl
    | error e =>
      rw [mainRun, h]
      rfl
  · intro e he
    rw [mainRun, he]

/-- C9 witness: when the very first HTTP call raises `ConnectionError`,
`main` returns normally with the two-line hint. -/
theorem C9_main_total_witness :
    mainRun (fun _ => .error .connectionError) =
      .returned (errEvents .connectionError) :=
  (C9_main_total (fun _ => .error .connectionError)).2.1 .connectionError rfl

/-- C10: the optional-data accesses of `main` are guarded — a truthy
printers guard over a `printers` list makes `printers['printers'][0]`
safe, a truthy job guard makes `print_job['job']['id']` safe, a falsy
printers guard skips the connect/status block entirely while a truthy one
issues both calls, and the structured print submission happens on every
successful run regardless of the printer listing. -/
theorem C10_main_guarded :
    (∀ (kvs : List (String × JVal)) (xs : List JVal),
      kvs.lookup "printers" = some (.arr xs) →
      printersGuard (.obj kvs) = .ok true →
      ∃ v, (pySubscriptStr (.obj kvs) "printers" >>= fun l =>
        pySubscriptNat l 0) = .ok v) ∧
    (∀ pj, jobGuard pj = .ok true →
      ∃ v, (pySubscriptStr pj "job" >>= fun j =>
        pySubscriptStr j "id") = .ok v) ∧
    (∀ (o : HttpOracle) (printers : JVal),
      printersGuard printers = .ok false → connectStep o printers = .ok []) ∧
    (∀ (o : HttpOracle) (printers : JVal) (evs : List Ev),
      printersGuard printers = .ok true → connectStep o printers = .ok evs →
      (∃ v p, Ev.call (connect_printer_request v p) ∈ evs) ∧
        Ev.call get_printer_status_request ∈ evs) ∧
    (∀ (o : HttpOracle) (evs : List Ev), mainBody o = .ok evs →
      Ev.call (print_label_request mainLabelData) ∈ evs) :=
  ⟨printersGuard_arr_access, jobGuard_id_access, connectStep_skip,
   connectStep_calls, mainBody_print_call⟩

/-- C10 witness: the guarded accesses succeed on a concrete one-printer
response and a concrete job response; the empty printers object skips the
connect block; the empty-object oracle's run contains connect, status and
print calls as stated. -/
theorem C10_main_guarded_witness :
    (∃ v, (pySubscriptStr
        (.obj [("printers", JVal.arr
          [JVal.obj [("vendorId", JVal.num 1), ("productId", JVal.num 2)]])])
        "printers" >>= fun l => pySubscriptNat l 0) = .ok v) ∧
    (∃ v, (pySubscriptStr (JVal.obj [("job", JVal.obj [("id", JVal.num 3)])])
        "job" >>= fun j => pySubscriptStr j "id") = .ok v) ∧
    connectStep (fun _ => .ok (.obj [])) (.obj []) = .ok [] ∧
    (∃ v p, Ev.call (connect_printer_request v p) ∈
      okEvs (connectStep (fun _ => .ok (.obj []))
        (.obj [("printers", JVal.arr
          [JVal.obj [("vendorId", JVal.num 1), ("productId", JVal.num 2)]])]))) ∧
    Ev.call (print_label_request mainLabelData) ∈
      okEvs (mainBody (fun _ => .ok (.obj []))) :=
  ⟨C10_main_guarded.1
      [("printers", JVal.arr
        [JVal.obj [("vendorId", JVal.num 1), ("productId", JVal.num 2)]])]
      [JVal.obj [("vendorId", JVal.num 1), ("productId", JVal.num 2)]]
      rfl rfl,
   C10_main_guarded.2.1 (JVal.obj [("job", JVal.obj [("id", JVal.num 3)])])
      rfl,
   C10_main_guarded.2.2.1 (fun _ => .ok (.obj [])) (.obj []) rfl,
   (C10_main_guarded.2.2.2.1 (fun _ => .ok (.obj []))
      (.obj [("printers", JVal.arr
        [JVal.obj [("vendorId", JVal.num 1), ("productId", JVal.num 2)]])])
      (okEvs (connectStep (fun _ => .ok (.obj []))
        (.obj [("printers", JVal.arr
          [JVal.obj [("vendorId", JVal.num 1), ("productId", JVal.num 2)]])])))
      rfl rfl).1,
   C10_main_guarded.2.2.2.2 (fun _ => .ok (.obj []))
      (okEvs (mainBody (fun _ => .ok (.obj [])))) rfl⟩
